import Mathlib

/-!
Shallow embedding of the conversation store and streaming-response
aggregator of a Telegram chat bot (src/src/main.rs).

The source keeps a `HashMap<ChatId, Vec<ChatCompletionRequestMessage>>`
behind a mutex; each handler locks it only for the brief in-memory
append/snapshot/reset/clear, so every handler body is a sequential
function of the store value.  We embed:

- `ChatHistories` as a partial map `ChatId → Option ChatMessages`
  (a `HashMap` lookup), `ChatMessage` as the role/content pair the code
  builds with `ChatCompletionRequestMessageArgs` (role and content are
  the only fields it sets);
- the `entry(id).or_default()` idiom as `entryOrDefault` plus the insert
  the entry API performs;
- `complete_chat`'s streaming loop (lines 56-74) as a fold over the
  stream's items; an item carries `delta.content : Option String`
  (items whose content is `None` are skipped by the `if let`), and an
  `Except.error` item stands for a stream item whose `result.unwrap()`
  (or the `choices.get(0).unwrap()`) would panic;
- every fallible transport/adapter call (`send_message(..).unwrap()`,
  `create_stream(..)?`, `edit_message_text(..).unwrap()`) as a boolean
  oracle in a `World`; both `unwrap` panic and `?` abort the handler, so
  each is modelled as an early return with the store as it stands.

`Vec::clone` gives the snapshot copy semantics; lists are values here,
so a snapshot is a value by construction.
-/

namespace ChatBot

/-- Rust's `str::trim`: the string with leading and trailing whitespace
    removed.  (Defined over the character list so the kernel can evaluate
    it; Lean's own `String.trim` is equal but uses well-founded recursion
    on byte positions, which does not reduce.) -/
def strTrim (s : String) : String :=
  ⟨((s.data.dropWhile Char.isWhitespace).reverse.dropWhile
      Char.isWhitespace).reverse⟩

/-- `async_openai::types::Role`; its `Display` prints the lowercase name. -/
inductive Role where
  | system
  | user
  | assistant
deriving DecidableEq, Repr

def Role.toDisplay : Role → String
  | .system => "system"
  | .user => "user"
  | .assistant => "assistant"

/-- One chat message as the code builds it: a role and a content string. -/
structure ChatMessage where
  role : Role
  content : String
deriving DecidableEq, Repr

/-- `teloxide::types::ChatId` is an `i64`; an unbounded `Int` keeps the
    map-key role without modelling overflow (no arithmetic is done on it). -/
abbrev ChatId := Int

abbrev ChatMessages := List ChatMessage

/-- `HashMap<ChatId, ChatMessages>` as a partial map. -/
abbrev ChatHistories := ChatId → Option ChatMessages

def emptyHistories : ChatHistories := fun _ => none

/-- `guard.insert(id, msgs)` / the write-back of an `entry` handle. -/
def storeInsert (st : ChatHistories) (id : ChatId) (msgs : ChatMessages) :
    ChatHistories :=
  fun j => if j = id then some msgs else st j

/-- The value `guard.entry(id).or_default()` exposes: the stored vector,
    or a fresh empty one when the key is absent. -/
def entryOrDefault (st : ChatHistories) (id : ChatId) : ChatMessages :=
  (st id).getD []

/-- `guard.entry(id).or_default().push(m)`: creates the (empty) history if
    absent, then pushes `m` at the end. -/
def appendTurn (st : ChatHistories) (id : ChatId) (m : ChatMessage) :
    ChatHistories :=
  storeInsert st id (entryOrDefault st id ++ [m])

/-- `messages.clone()` under the lock: the current history as a value. -/
def snapshot (st : ChatHistories) (id : ChatId) : ChatMessages :=
  entryOrDefault st id

def userTurn (content : String) : ChatMessage := ⟨.user, content⟩
def systemTurn (content : String) : ChatMessage := ⟨.system, content⟩
def assistantTurn (content : String) : ChatMessage := ⟨.assistant, content⟩

/-- A sequence of `append` calls on one id, in call order. -/
def appendAll (st : ChatHistories) (id : ChatId) (ts : ChatMessages) :
    ChatHistories :=
  ts.foldl (fun s t => appendTurn s id t) st

/-! ### Streaming aggregator (complete_chat, lines 56-74) -/

/-- The transient per-request accumulator: `chunks` (the `Vec` of received
    fragment texts), `count` (the non-empty-fragment counter), and the
    contents of the threshold edits issued so far, in order. -/
structure AggState where
  chunks : List String
  count : Nat
  edits : List String
deriving DecidableEq, Repr

def initialAgg : AggState := ⟨[], 0, []⟩

/-- The loop body for one stream item whose `delta.content` is present
    (`none` models a chunk the `if let Some(..)` skips):
    push the fragment, and when it is non-empty after trimming, bump the
    counter and, at `count % 20 == 0`, record an edit carrying
    `chunks.join("")`. -/
def processItem (s : AggState) (item : Option String) : AggState :=
  match item with
  | none => s
  | some content =>
    let chunks := s.chunks ++ [content]
    if (strTrim content).isEmpty then
      { chunks := chunks, count := s.count, edits := s.edits }
    else
      let count := s.count + 1
      if count % 20 = 0 then
        { chunks := chunks, count := count,
          edits := s.edits ++ [String.join chunks] }
      else
        { chunks := chunks, count := count, edits := s.edits }

/-- The whole `while let Some(result) = stream.next().await` loop on an
    error-free stream. -/
def runStream (items : List (Option String)) : AggState :=
  items.foldl processItem initialAgg

/-- The environment of one `complete_chat` call: whether the placeholder
    `send_message` succeeds, whether `create_stream` succeeds, the stream's
    items (`error` = an item whose unwraps panic), and whether the n-th
    issued `edit_message_text` succeeds. -/
structure World where
  placeholderOk : Bool
  streamOpenOk : Bool
  items : List (Except Unit (Option String))
  editOk : Nat → Bool

/-- A world in which the transport never fails and every stream item is a
    well-formed chunk: the "ends without error" runs. -/
def okWorld (frags : List (Option String)) : World :=
  ⟨true, true, frags.map Except.ok, fun _ => true⟩

/-- The streaming loop threaded through the fallible edits: returns the
    accumulator, the number of edits issued, and whether the loop ran to
    the end of the stream without a panic. -/
def streamLoop (editOk : Nat → Bool) (agg : AggState) (editIdx : Nat) :
    List (Except Unit (Option String)) → AggState × Nat × Bool
  | [] => (agg, editIdx, true)
  | Except.error _ :: _ => (agg, editIdx, false)
  | Except.ok none :: rest => streamLoop editOk agg editIdx rest
  | Except.ok (some content) :: rest =>
    let chunks := agg.chunks ++ [content]
    if (strTrim content).isEmpty then
      streamLoop editOk ⟨chunks, agg.count, agg.edits⟩ editIdx rest
    else
      let count := agg.count + 1
      if count % 20 = 0 then
        if editOk editIdx then
          streamLoop editOk ⟨chunks, count, agg.edits ++ [String.join chunks]⟩
            (editIdx + 1) rest
        else
          (⟨chunks, count, agg.edits⟩, editIdx, false)
      else
        streamLoop editOk ⟨chunks, count, agg.edits⟩ editIdx rest

/-- Everything one `complete_chat` run did that the claims observe. -/
structure RunResult where
  state : ChatHistories
  snapshotSent : ChatMessages
  placeholderSent : Bool
  streamEdits : List String
  afterStreamEdits : List String
  assistantAppended : Option String
  failed : Bool

/-- `complete_chat` (lines 19-89): append the user turn and clone the
    history under the lock; send the placeholder; open the stream; run the
    loop; after the loop, one unconditional final edit with the full join;
    then append the assistant turn.  Each failure aborts the remaining
    steps with the store as already mutated. -/
def complete_chat (w : World) (content : String) (id : ChatId)
    (st : ChatHistories) : RunResult :=
  let st1 := appendTurn st id (userTurn content)
  let hists := snapshot st1 id
  if w.placeholderOk then
    if w.streamOpenOk then
      match streamLoop w.editOk initialAgg 0 w.items with
      | (agg, editIdx, ok) =>
        if ok then
          if w.editOk editIdx then
            let joined := String.join agg.chunks
            ⟨appendTurn st1 id (assistantTurn joined), hists, true,
              agg.edits, [joined], some joined, false⟩
          else
            ⟨st1, hists, true, agg.edits, [], none, true⟩
        else
          ⟨st1, hists, true, agg.edits, [], none, true⟩
    else
      ⟨st1, hists, true, [], [], none, true⟩
  else
    ⟨st1, hists, false, [], [], none, true⟩

/-! ### The other command handlers -/

/-- `set_prompt` (lines 91-112): under the lock, `clear()` then push one
    system turn; afterwards send the "Prompt set." reply, whose failure
    (`?`) aborts with the store already mutated. -/
def set_prompt (sendOk : Bool) (prompt : String) (id : ChatId)
    (st : ChatHistories) : ChatHistories × Except Unit Unit :=
  let st1 := storeInsert st id [systemTurn prompt]
  (st1, if sendOk then Except.ok () else Except.error ())

/-- The reply text `view_histories` computes (lines 115-127): the literal
    "Empty chat history." for an empty vector, else the turns formatted
    `format!("{}: {}", msg.role, msg.content.trim())` and joined with
    `"\n\n"`. -/
def viewContent (msgs : ChatMessages) : String :=
  if msgs.isEmpty then
    "Empty chat history."
  else
    String.intercalate "\n\n"
      (msgs.map (fun m => m.role.toDisplay ++ ": " ++ strTrim m.content))

/-- `view_histories` (lines 114-134): `entry(id).or_default()` (which
    inserts an empty history for an absent id), format, reply. -/
def view_histories (sendOk : Bool) (id : ChatId) (st : ChatHistories) :
    ChatHistories × String × Except Unit Unit :=
  let msgs := entryOrDefault st id
  (storeInsert st id msgs, viewContent msgs,
    if sendOk then Except.ok () else Except.error ())

/-- `clear_history` (lines 136-148): under the lock, `clear()`; then the
    "Chat histories cleared." reply, whose failure aborts with the store
    already cleared. -/
def clear_history (sendOk : Bool) (id : ChatId) (st : ChatHistories) :
    ChatHistories × Except Unit Unit :=
  (storeInsert st id [], if sendOk then Except.ok () else Except.error ())

/-- Modelled from the spec: the view reply as the claim words it — one
    `"role: text"` line per turn, newline-separated (single `"\n"`, text
    untrimmed), or "Empty chat history." if none.  Used only to compare
    the spec's wording with `viewContent`, which the code defines. -/
def specViewContent (msgs : ChatMessages) : String :=
  if msgs.isEmpty then
    "Empty chat history."
  else
    String.intercalate "\n"
      (msgs.map (fun m => m.role.toDisplay ++ ": " ++ m.content))

/-! ### Basic store lemmas -/

theorem snapshot_storeInsert (st : ChatHistories) (id : ChatId)
    (msgs : ChatMessages) : snapshot (storeInsert st id msgs) id = msgs := by
  simp [snapshot, storeInsert, entryOrDefault]

theorem snapshot_appendTurn (st : ChatHistories) (id : ChatId)
    (m : ChatMessage) :
    snapshot (appendTurn st id m) id = snapshot st id ++ [m] := by
  simp [snapshot, appendTurn, storeInsert, entryOrDefault]

theorem snapshot_appendAll (st : ChatHistories) (id : ChatId)
    (ts : ChatMessages) :
    snapshot (appendAll st id ts) id = snapshot st id ++ ts := by
  induction ts generalizing st with
  | nil => simp [appendAll]
  | cons t ts ih =>
    have h1 : appendAll st id (t :: ts) = appendAll (appendTurn st id t) id ts :=
      rfl
    rw [h1, ih, snapshot_appendTurn, List.append_assoc, List.singleton_append]

/-- C3: a sequence of appends on one id is returned by `snapshot` in call
    order after the prior history, and an append on an absent id first
    creates an empty history and then adds the turn at its end. -/
theorem append_snapshot_call_order (st : ChatHistories) (id : ChatId)
    (ts : ChatMessages) (t : ChatMessage) :
    snapshot (appendAll st id ts) id = snapshot st id ++ ts ∧
    (st id = none → appendTurn st id t id = some ([] ++ [t])) := by
  refine ⟨snapshot_appendAll st id ts, fun h => ?_⟩
  simp [appendTurn, storeInsert, entryOrDefault, h]

/-- C3 at a concrete store: two appends on the empty registry. -/
theorem append_snapshot_call_order_witness :
    snapshot (appendAll emptyHistories 0 [userTurn "a", userTurn "b"]) 0
        = snapshot emptyHistories 0 ++ [userTurn "a", userTurn "b"] ∧
    (emptyHistories 0 = none →
      appendTurn emptyHistories 0 (userTurn "a") 0 = some ([] ++ [userTurn "a"])) :=
  append_snapshot_call_order emptyHistories 0 [userTurn "a", userTurn "b"]
    (userTurn "a")

/-- C4: `set_prompt` (reset) followed by `snapshot` yields exactly one
    turn, with role system and the given text, whatever was there before. -/
theorem reset_then_snapshot (sendOk : Bool) (s : String) (id : ChatId)
    (st : ChatHistories) :
    snapshot (set_prompt sendOk s id st).1 id = [systemTurn s] := by
  simp [set_prompt, snapshot, storeInsert, entryOrDefault]

/-- C5: `clear_history` followed by `snapshot` yields the empty sequence,
    whatever was there before (a prior system turn included). -/
theorem clear_then_snapshot (sendOk : Bool) (id : ChatId)
    (st : ChatHistories) :
    snapshot (clear_history sendOk id st).1 id = [] := by
  simp [clear_history, snapshot, storeInsert, entryOrDefault]

/-- C9: running `view` twice on the same id with no intervening mutation
    of that conversation's history formats the identical reply text, for
    any outcome of either reply send. -/
theorem view_idempotent (a b : Bool) (id : ChatId) (st : ChatHistories) :
    (view_histories b id (view_histories a id st).1).2.1
      = (view_histories a id st).2.1 := by
  simp [view_histories, entryOrDefault, storeInsert]

/-- C10: for prompt and clear the store mutation is performed before the
    confirmation reply: the new state does not depend on whether the send
    succeeds, the mutated history is in place even when the reply errors,
    and the command reports an error exactly when the send fails. -/
theorem mutate_before_reply (sendOk : Bool) (p : String) (id : ChatId)
    (st : ChatHistories) :
    (set_prompt sendOk p id st).1 = (set_prompt true p id st).1 ∧
    snapshot (set_prompt sendOk p id st).1 id = [systemTurn p] ∧
    ((set_prompt sendOk p id st).2 = Except.error () ↔ sendOk = false) ∧
    (clear_history sendOk id st).1 = (clear_history true id st).1 ∧
    snapshot (clear_history sendOk id st).1 id = [] ∧
    ((clear_history sendOk id st).2 = Except.error () ↔ sendOk = false) := by
  cases sendOk <;>
    simp [set_prompt, clear_history, snapshot, storeInsert, entryOrDefault]

/-! ### Aggregator step lemmas -/

theorem processItem_none (s : AggState) : processItem s none = s := rfl

theorem processItem_chunks (s : AggState) (c : String) :
    (processItem s (some c)).chunks = s.chunks ++ [c] := by
  by_cases h : (strTrim c).isEmpty <;>
    by_cases h2 : (s.count + 1) % 20 = 0 <;> simp [processItem, h, h2]

theorem processItem_count (s : AggState) (c : String) :
    (processItem s (some c)).count
      = (if (strTrim c).isEmpty then s.count else s.count + 1) := by
  by_cases h : (strTrim c).isEmpty <;>
    by_cases h2 : (s.count + 1) % 20 = 0 <;> simp [processItem, h, h2]

theorem processItem_edits (s : AggState) (c : String) :
    (processItem s (some c)).edits
      = (if (strTrim c).isEmpty = false ∧ (s.count + 1) % 20 = 0 then
          s.edits ++ [String.join (s.chunks ++ [c])]
        else s.edits) := by
  by_cases h : (strTrim c).isEmpty <;>
    by_cases h2 : (s.count + 1) % 20 = 0 <;> simp [processItem, h, h2]

theorem foldl_processItem_chunks (items : List (Option String)) :
    ∀ a : AggState,
      (items.foldl processItem a).chunks = a.chunks ++ items.filterMap id := by
  induction items with
  | nil => intro a; simp
  | cons i rest ih =>
    intro a
    cases i with
    | none => simpa [processItem_none] using ih a
    | some c =>
      simp only [List.foldl_cons, List.filterMap_cons, ih, processItem_chunks,
        id_eq, List.append_assoc, List.singleton_append]

theorem foldl_processItem_count (items : List (Option String)) :
    ∀ a : AggState,
      (items.foldl processItem a).count
        = a.count
          + ((items.filterMap id).filter (fun f => !(strTrim f).isEmpty)).length := by
  induction items with
  | nil => intro a; simp
  | cons i rest ih =>
    intro a
    cases i with
    | none => simpa [processItem_none] using ih a
    | some c =>
      simp only [List.foldl_cons, List.filterMap_cons, id_eq, ih,
        processItem_count, List.filter_cons]
      by_cases h : (strTrim c).isEmpty
      · simp [h]
      · simp [h]
        omega

/-- C1: handling one received fragment appends its text to the buffer,
    bumps the counter exactly when the fragment is non-empty after
    trimming (whitespace-only fragments are tolerated: appended, not
    counted), and issues an edit carrying the full joined text so far
    exactly when the counter thereby reaches a positive multiple of 20;
    over a whole stream the buffer holds every received fragment in order
    and the counter counts the non-empty ones. -/
theorem fragment_step (s : AggState) (c : String) :
    (processItem s (some c)).chunks = s.chunks ++ [c] ∧
    (processItem s (some c)).count
      = (if (strTrim c).isEmpty then s.count else s.count + 1) ∧
    ((processItem s (some c)).edits = s.edits ∨
      (processItem s (some c)).edits
        = s.edits ++ [String.join ((processItem s (some c)).chunks)]) ∧
    ((processItem s (some c)).edits ≠ s.edits ↔
      ((strTrim c).isEmpty = false ∧
        ∃ k, 0 < k ∧ (processItem s (some c)).count = 20 * k)) ∧
    (∀ items, (runStream items).chunks = items.filterMap id) ∧
    (∀ items, (runStream items).count
      = ((items.filterMap id).filter (fun f => !(strTrim f).isEmpty)).length) := by
  refine ⟨processItem_chunks s c, processItem_count s c, ?_, ?_,
    fun items => by
      simpa [runStream, initialAgg] using foldl_processItem_chunks items initialAgg,
    fun items => by
      simpa [runStream, initialAgg] using foldl_processItem_count items initialAgg⟩
  · rw [processItem_edits]
    split
    · exact Or.inr (by rw [processItem_chunks])
    · exact Or.inl rfl
  · rw [processItem_edits, processItem_count]
    by_cases h : (strTrim c).isEmpty <;> by_cases h2 : (s.count + 1) % 20 = 0 <;>
      simp [h, h2]
    · obtain ⟨k, hk⟩ := Nat.dvd_of_mod_eq_zero h2
      exact ⟨k, by omega, hk⟩
    · intro k hk0 hk
      rw [hk] at h2
      simp [Nat.mul_mod_right] at h2

/-! ### complete_chat: context, final edit, failure semantics -/

theorem complete_chat_snapshotSent (w : World) (content : String)
    (id : ChatId) (st : ChatHistories) :
    (complete_chat w content id st).snapshotSent
      = snapshot (appendTurn st id (userTurn content)) id := by
  unfold complete_chat
  repeat' split
  all_goals rfl

/-- C6: the context sent to the completion engine is the snapshot taken
    after the user turn was appended: the prior history with the new user
    turn at its end.  The snapshot is a list value (the code's
    `messages.clone()`), so it is a copy, unaffected by later store
    mutation by construction. -/
theorem chat_context_snapshot (w : World) (content : String) (id : ChatId)
    (st : ChatHistories) :
    (complete_chat w content id st).snapshotSent
      = snapshot st id ++ [userTurn content] := by
  rw [complete_chat_snapshotSent, snapshot_appendTurn]

theorem streamLoop_allOk (frags : List (Option String)) :
    ∀ (agg : AggState) (i : Nat), ∃ j,
      streamLoop (fun _ => true) agg i (frags.map Except.ok)
        = (frags.foldl processItem agg, j, true) := by
  induction frags with
  | nil => exact fun _ i => ⟨i, rfl⟩
  | cons f rest ih =>
    intro agg i
    cases f with
    | none => simpa [streamLoop, processItem_none] using ih agg i
    | some c =>
      by_cases h : (strTrim c).isEmpty
      · simpa [streamLoop, processItem, h] using
          ih ⟨agg.chunks ++ [c], agg.count, agg.edits⟩ i
      · by_cases h2 : (agg.count + 1) % 20 = 0
        · simpa [streamLoop, processItem, h, h2] using
            ih ⟨agg.chunks ++ [c], agg.count + 1,
                agg.edits ++ [String.join (agg.chunks ++ [c])]⟩ (i + 1)
        · simpa [streamLoop, processItem, h, h2] using
            ih ⟨agg.chunks ++ [c], agg.count + 1, agg.edits⟩ i

/-- C2: a streaming completion that ends without error issues exactly one
    edit after stream end, unconditionally (zero fragments included), and
    its content is the join of all received fragments in arrival order. -/
theorem final_edit_after_stream_end (frags : List (Option String))
    (content : String) (cid : ChatId) (st : ChatHistories) :
    (complete_chat (okWorld frags) content cid st).failed = false ∧
    (complete_chat (okWorld frags) content cid st).afterStreamEdits
      = [String.join (frags.filterMap id)] := by
  obtain ⟨j, hj⟩ := streamLoop_allOk frags initialAgg 0
  have hch : (List.foldl processItem initialAgg frags).chunks
      = List.filterMap id frags := by
    simpa [initialAgg] using foldl_processItem_chunks frags initialAgg
  constructor
  · simp only [complete_chat, okWorld]
    rw [hj]
    simp
  · simp only [complete_chat, okWorld]
    rw [hj]
    simp [hch]

/-- C7: when any transport or adapter step fails, the run aborts with the
    user turn retained and no assistant turn; when the run does not fail,
    the joined text is appended as the assistant turn — the history is
    `prior ++ [user]` on failure and `prior ++ [user, assistant(join)]`
    on success. -/
theorem chat_failure_retains_user_turn (w : World) (content : String)
    (id : ChatId) (st : ChatHistories) :
    ((complete_chat w content id st).failed = true →
        snapshot (complete_chat w content id st).state id
          = snapshot st id ++ [userTurn content]) ∧
    ((complete_chat w content id st).failed = false →
        snapshot (complete_chat w content id st).state id
          = snapshot st id
              ++ [userTurn content,
                  assistantTurn
                    (String.join
                      (streamLoop w.editOk initialAgg 0 w.items).1.chunks)]) := by
  rcases hl : streamLoop w.editOk initialAgg 0 w.items with ⟨agg, rest⟩
  rcases rest with ⟨editIdx, ok⟩
  by_cases hp : w.placeholderOk <;> by_cases hs : w.streamOpenOk <;>
    cases ok <;> by_cases he : w.editOk editIdx <;>
      simp [complete_chat, hl, hp, hs, he, snapshot_appendTurn]

/-- C7 at concrete runs: a failing placeholder send retains just the user
    turn; an error-free one-fragment stream appends user then assistant. -/
theorem chat_failure_retains_user_turn_witness :
    snapshot
        (complete_chat (World.mk false true [] (fun _ => true)) "hi" 0
          emptyHistories).state 0
      = snapshot emptyHistories 0 ++ [userTurn "hi"] ∧
    snapshot (complete_chat (okWorld [some "4"]) "hi" 0 emptyHistories).state 0
      = snapshot emptyHistories 0
          ++ [userTurn "hi",
              assistantTurn
                (String.join
                  (streamLoop (okWorld [some "4"]).editOk initialAgg 0
                    (okWorld [some "4"]).items).1.chunks)] :=
  ⟨(chat_failure_retains_user_turn (World.mk false true [] (fun _ => true))
      "hi" 0 emptyHistories).1 (by decide),
   (chat_failure_retains_user_turn (okWorld [some "4"])
      "hi" 0 emptyHistories).2 (by decide)⟩

/-! ### The view reply format -/

/-- C8 counterexample: with two one-character turns the code's reply joins
    the formatted turns with a blank line (`"\n\n"`), not a single
    newline, so it differs from the claim's newline-separated format (the
    code also trims each turn's text, which the claim does not). -/
theorem view_format_counterexample :
    viewContent [userTurn "a", userTurn "b"]
      ≠ specViewContent [userTurn "a", userTurn "b"] := by decide

/-- C8 amended: the reply is one `"role: trimmed text"` segment per turn
    in history order, joined with `"\n\n"` (a blank line between turns),
    and exactly the string "Empty chat history." when the history is
    empty, an unknown conversation id included. -/
theorem view_reply_format (st : ChatHistories) (cid : ChatId) (sendOk : Bool) :
    (entryOrDefault st cid = [] →
      (view_histories sendOk cid st).2.1 = "Empty chat history.") ∧
    (entryOrDefault st cid ≠ [] →
      (view_histories sendOk cid st).2.1
        = String.intercalate "\n\n"
            ((entryOrDefault st cid).map
              (fun m => m.role.toDisplay ++ ": " ++ strTrim m.content))) := by
  constructor
  · intro h
    simp [view_histories, viewContent, h]
  · intro h
    simp [view_histories, viewContent, h]

/-- C8 amended at concrete stores: an unknown id, and a two-turn history
    with whitespace around one turn's text. -/
theorem view_reply_format_witness :
    (view_histories true 0 emptyHistories).2.1 = "Empty chat history." ∧
    (view_histories true 0
        (storeInsert emptyHistories 0 [userTurn " a ", systemTurn "b"])).2.1
      = String.intercalate "\n\n"
          ((entryOrDefault
              (storeInsert emptyHistories 0 [userTurn " a ", systemTurn "b"])
              0).map
            (fun m => m.role.toDisplay ++ ": " ++ strTrim m.content)) :=
  ⟨(view_reply_format emptyHistories 0 true).1 rfl,
   (view_reply_format
      (storeInsert emptyHistories 0 [userTurn " a ", systemTurn "b"]) 0 true).2
     (by decide)⟩

end ChatBot
